import Mathlib

/-!
Shallow embedding of the table-of-contents converter of `sphinx_material`
(`src/sphinx_material/__init__.py`): the `_TocVisitor` docutils node visitor,
`_get_mkdocs_toc`, and the `add_html_link` / `reformat_pages` build hooks.

The docutils node kinds that `_TocVisitor` dispatches on form a closed set
(reference, caption, bullet_list, list_item, toctree, paragraph,
compact_paragraph); they are modelled as an inductive type.  A reference's
rendered title (`_render_title(node.children)`) and a caption's rendered text
are carried as pre-rendered strings, since `_render_title` is an external
collaborator that flattens inline markup to text.  `docutils`'s `node.walk`
visits a node and, unless the visitor raises `SkipChildren`, recursively walks
its children; node identity (used by `self._prev_caption.parent is
node.parent`) is modelled by the node's path (list of child indices) from the
root of the top-level walk, which identifies a node uniquely within one
conversion.
-/

/-- The docutils node kinds visited by `_TocVisitor`.  `reference` carries its
rendered title and optional `refuri`; `caption` carries its rendered text;
`bullet_list` and `list_item` carry their `iscurrent` marker and children. -/
inductive Node where
  | reference (title : String) (refuri : Option String)
  | caption (text : String)
  | bullet_list (iscurrent : Bool) (children : List Node)
  | list_item (iscurrent : Bool) (children : List Node)
  | toctree (children : List Node)
  | paragraph (children : List Node)
  | compact_paragraph (children : List Node)

/-- One entry of the mkdocs-format toc: the dict
`{'title': ..., 'url': ..., 'children': ..., 'active': ...}` built by
`_TocVisitor.get_result` and `visit_bullet_list`. -/
inductive NavEntry where
  | mk (title : Option String) (url : Option String)
      (children : List NavEntry) (active : Bool)

def NavEntry.title : NavEntry → Option String
  | .mk t _ _ _ => t

def NavEntry.url : NavEntry → Option String
  | .mk _ u _ _ => u

def NavEntry.children : NavEntry → List NavEntry
  | .mk _ _ c _ => c

def NavEntry.active : NavEntry → Bool
  | .mk _ _ _ a => a

/-- A node's position in the tree being walked: the list of child indices from
the walk's root.  Two nodes of one walk are identical iff their paths are
equal, so `is`-comparison of parents becomes equality of parent paths (the
root's parent, outside the walked tree, is `none`). -/
abbrev NodePath := List Nat

/-- The Python `AttributeError` raised by `self._url.find('#')` when
`self._url` is `None`. -/
inductive PyError where
  | attributeError
  deriving DecidableEq, Repr

/-- The mutable state of a `_TocVisitor` instance. -/
structure TocVisitor where
  prev_caption : Option (String × Option NodePath)
  rendered_title : Option String
  url : Option String
  active : Bool
  children : List NavEntry
  exclude_local : Bool
  local_only : Bool

/-- Initial visitor state: `_TocVisitor.__init__`. -/
def TocVisitor.init (exclude_local : Bool) : TocVisitor :=
  { prev_caption := none
    rendered_title := none
    url := none
    active := false
    children := []
    exclude_local := exclude_local
    local_only := true }

/-- Model of `_TocVisitor.get_result`. -/
def TocVisitor.get_result (s : TocVisitor) : NavEntry :=
  .mk s.rendered_title s.url s.children s.active

/-- The fresh child visitor constructed in `visit_bullet_list` and
`visit_list_item`: `_TocVisitor(self.document, self._builder,
exclude_local=self._exclude_local)` followed by the conditional
`child_visitor._active = True` when the source node is marked `iscurrent`
(a fresh visitor's `_active` starts `False`, so the conditional assignment
amounts to setting it to the marker). -/
def childVisitor (exclude_local iscurrent : Bool) : TocVisitor :=
  { TocVisitor.init exclude_local with active := iscurrent }

/-- Whether a url contains a `'#'` character: `url.find('#') != -1` in the
source (`-1` meaning no occurrence, so `find('#') == -1` is `¬ containsHash`). -/
def containsHash (u : String) : Bool := u.data.contains '#'

/-- The group url computed in `visit_bullet_list`'s caption branch:
`url = None`, then `if children: url = children[0].get('url', None)`. -/
def firstChildUrl (children : List NavEntry) : Option String :=
  match children with
  | [] => none
  | c :: _ => c.url

mutual

/-- Model of `node.walk(visitor)`: dispatch the visit method for `n` on state `s`, and
descend into `n`'s children unless the visit raised `SkipChildren`.
`parent` is the path of `n`'s parent, `path` the path of `n` itself.

In `visit_bullet_list`'s caption branch the source calls
`node.walk(child_visitor)` on the bullet list itself with a freshly
constructed visitor; since the fresh visitor's `_prev_caption` is `None`,
that dispatch necessarily falls through to descending into the list items,
which is inlined here as `walkNodeList` on the children. -/
def walkNode (s : TocVisitor) (parent : Option NodePath) (path : NodePath) (n : Node) :
    Except PyError TocVisitor :=
  match n with
  | .reference title refuri =>
    -- visit_reference: record title and url, then SkipChildren.
    let s := { s with rendered_title := some title, url := refuri }
    if s.exclude_local then
      match refuri with
      | none => .error .attributeError   -- None.find('#') raises
      | some u =>
        if containsHash u then .ok s
        else .ok { s with local_only := false }
    else .ok s
  | .caption text =>
    -- visit_caption: remember the caption, SkipChildren.
    .ok { s with prev_caption := some (text, parent) }
  | .toctree _ =>
    -- visit_toctree: SkipChildren.
    .ok s
  | .paragraph cs =>
    -- visit_paragraph: pass; walk descends into the children.
    walkNodeList s path 0 cs
  | .compact_paragraph cs =>
    -- visit_compact_paragraph: pass; walk descends into the children.
    walkNodeList s path 0 cs
  | .bullet_list iscurrent cs =>
    match s.prev_caption with
    | some (ctext, cparent) =>
      if cparent = parent then
        -- Insert as sub-entry of the previous caption.
        let s := { s with prev_caption := none }
        match walkNodeList (childVisitor s.exclude_local iscurrent) path 0 cs with
        | .error e => .error e
        | .ok cv =>
          let url := firstChildUrl cv.children
          let s := if cv.local_only then s else { s with local_only := false }
          .ok { s with children :=
            s.children ++ [.mk (some ctext) url cv.children cv.active] }
      else
        -- Otherwise, just process each list_item as a direct child.
        walkNodeList s path 0 cs
    | none => walkNodeList s path 0 cs
  | .list_item iscurrent cs =>
    -- visit_list_item: collect url, title and children with a separate
    -- fresh visitor walking each child, then append unless pruned.
    match walkNodeList (childVisitor s.exclude_local iscurrent) path 0 cs with
    | .error e => .error e
    | .ok cv =>
      let child_result := cv.get_result
      if s.exclude_local && cv.local_only then .ok s
      else .ok { s with local_only := false,
                        children := s.children ++ [child_result] }

/-- Walk a list of sibling nodes in order with one visitor, threading the
state; the siblings' parent is the node at `parentPath` and the `i`-th has
path `parentPath ++ [i]`. -/
def walkNodeList (s : TocVisitor) (parentPath : NodePath) (i : Nat) (ns : List Node) :
    Except PyError TocVisitor :=
  match ns with
  | [] => .ok s
  | n :: rest =>
    match walkNode s (some parentPath) (parentPath ++ [i]) n with
    | .error e => .error e
    | .ok s1 => walkNodeList s1 parentPath (i + 1) rest

end

/-- Model of `_get_mkdocs_toc`: construct a fresh visitor, walk the toc node, return
the visitor's collected children. -/
def _get_mkdocs_toc (toc_node : Node) (exclude_local : Bool) :
    Except PyError (List NavEntry) :=
  match walkNode (TocVisitor.init exclude_local) none [] toc_node with
  | .error e => .error e
  | .ok v => .ok v.children

/-- Facts preserved by every visit step: the `active` and `exclude_local`
fields of the invoking visitor are never modified by walking a subtree under
it, and entries are only ever appended to its `children` list. -/
def StepInv (s s' : TocVisitor) : Prop :=
  s'.active = s.active ∧ s'.exclude_local = s.exclude_local ∧
    ∃ t, s'.children = s.children ++ t

theorem StepInv.trans {a b c : TocVisitor} (h1 : StepInv a b) (h2 : StepInv b c) :
    StepInv a c := by
  obtain ⟨ha1, he1, t1, hc1⟩ := h1
  obtain ⟨ha2, he2, t2, hc2⟩ := h2
  exact ⟨ha2.trans ha1, he2.trans he1, t1 ++ t2, by rw [hc2, hc1, List.append_assoc]⟩

mutual

theorem walkNode_inv : ∀ (n : Node) (s : TocVisitor) (parent : Option NodePath)
    (path : NodePath) (s' : TocVisitor),
    walkNode s parent path n = .ok s' → StepInv s s'
  | .reference t r, s, p, q, s', h => by
    cases r with
    | none =>
      simp only [walkNode] at h
      split at h
      · cases h
      · cases h; exact ⟨rfl, rfl, [], by simp⟩
    | some u =>
      simp only [walkNode] at h
      split at h
      · split at h
        · cases h; exact ⟨rfl, rfl, [], by simp⟩
        · cases h; exact ⟨rfl, rfl, [], by simp⟩
      · cases h; exact ⟨rfl, rfl, [], by simp⟩
  | .caption text, s, p, q, s', h => by
    simp only [walkNode] at h
    cases h; exact ⟨rfl, rfl, [], by simp⟩
  | .toctree cs, s, p, q, s', h => by
    simp only [walkNode] at h
    cases h; exact ⟨rfl, rfl, [], by simp⟩
  | .paragraph cs, s, p, q, s', h => by
    simp only [walkNode] at h
    exact walkNodeList_inv cs s q 0 s' h
  | .compact_paragraph cs, s, p, q, s', h => by
    simp only [walkNode] at h
    exact walkNodeList_inv cs s q 0 s' h
  | .bullet_list b cs, s, p, q, s', h => by
    simp only [walkNode] at h
    cases hpc : s.prev_caption with
    | none =>
      simp only [hpc] at h
      exact walkNodeList_inv cs s q 0 s' h
    | some tc =>
      obtain ⟨ct, cp⟩ := tc
      simp only [hpc] at h
      by_cases hcp : cp = p
      · rw [if_pos hcp] at h
        cases hw : walkNodeList (childVisitor s.exclude_local b) q 0 cs with
        | error e => simp only [hw] at h; exact absurd h (by simp)
        | ok cv =>
          simp only [hw] at h
          cases h
          refine ⟨by split <;> rfl, by split <;> rfl, ?_⟩
          exact ⟨_, by split <;> rfl⟩
      · rw [if_neg hcp] at h
        exact walkNodeList_inv cs s q 0 s' h
  | .list_item b cs, s, p, q, s', h => by
    simp only [walkNode] at h
    cases hw : walkNodeList (childVisitor s.exclude_local b) q 0 cs with
    | error e => simp only [hw] at h; exact absurd h (by simp)
    | ok cv =>
      simp only [hw] at h
      split at h
      · cases h; exact ⟨rfl, rfl, [], by simp⟩
      · cases h; exact ⟨rfl, rfl, [cv.get_result], rfl⟩

theorem walkNodeList_inv : ∀ (ns : List Node) (s : TocVisitor) (pp : NodePath)
    (i : Nat) (s' : TocVisitor),
    walkNodeList s pp i ns = .ok s' → StepInv s s'
  | [], s, pp, i, s', h => by
    simp only [walkNodeList] at h
    cases h; exact ⟨rfl, rfl, [], by simp⟩
  | n :: rest, s, pp, i, s', h => by
    simp only [walkNodeList] at h
    cases hw : walkNode s (some pp) (pp ++ [i]) n with
    | error e => simp only [hw] at h; exact absurd h (by simp)
    | ok s1 =>
      simp only [hw] at h
      exact (walkNode_inv n s (some pp) (pp ++ [i]) s1 hw).trans
        (walkNodeList_inv rest s1 pp (i + 1) s' h)

end

mutual

theorem walkNode_total : ∀ (n : Node) (s : TocVisitor) (parent : Option NodePath)
    (path : NodePath), s.exclude_local = false →
    ∃ s', walkNode s parent path n = .ok s'
  | .reference t r, s, p, q, hx => by
    refine ⟨{ s with rendered_title := some t, url := r }, ?_⟩
    simp only [walkNode]
    rw [hx]
    rfl
  | .caption text, s, p, q, hx => ⟨_, rfl⟩
  | .toctree cs, s, p, q, hx => ⟨_, rfl⟩
  | .paragraph cs, s, p, q, hx => by
    obtain ⟨s', hs'⟩ := walkNodeList_total cs s q 0 hx
    exact ⟨s', by simp only [walkNode]; exact hs'⟩
  | .compact_paragraph cs, s, p, q, hx => by
    obtain ⟨s', hs'⟩ := walkNodeList_total cs s q 0 hx
    exact ⟨s', by simp only [walkNode]; exact hs'⟩
  | .bullet_list b cs, s, p, q, hx => by
    cases hpc : s.prev_caption with
    | none =>
      obtain ⟨s', hs'⟩ := walkNodeList_total cs s q 0 hx
      exact ⟨s', by simp only [walkNode, hpc]; exact hs'⟩
    | some tc =>
      obtain ⟨ct, cp⟩ := tc
      by_cases hcp : cp = p
      · obtain ⟨cv, hcv⟩ := walkNodeList_total cs (childVisitor s.exclude_local b) q 0 hx
        cases hcl : cv.local_only with
        | true =>
          refine ⟨{ s with
            prev_caption := none
            children := s.children ++
              [.mk (some ct) (firstChildUrl cv.children) cv.children cv.active] }, ?_⟩
          simp only [walkNode, hpc, hcv]
          rw [if_pos hcp, hcl]
          rfl
        | false =>
          refine ⟨{ s with
            prev_caption := none
            local_only := false
            children := s.children ++
              [.mk (some ct) (firstChildUrl cv.children) cv.children cv.active] }, ?_⟩
          simp only [walkNode, hpc, hcv]
          rw [if_pos hcp, hcl]
          rfl
      · obtain ⟨s', hs'⟩ := walkNodeList_total cs s q 0 hx
        refine ⟨s', ?_⟩
        simp only [walkNode, hpc]
        rw [if_neg hcp]
        exact hs'
  | .list_item b cs, s, p, q, hx => by
    obtain ⟨cv, hcv⟩ := walkNodeList_total cs (childVisitor s.exclude_local b) q 0 hx
    refine ⟨{ s with
      local_only := false
      children := s.children ++ [cv.get_result] }, ?_⟩
    simp only [walkNode, hcv]
    rw [hx]
    rfl

theorem walkNodeList_total : ∀ (ns : List Node) (s : TocVisitor) (pp : NodePath)
    (i : Nat), s.exclude_local = false →
    ∃ s', walkNodeList s pp i ns = .ok s'
  | [], s, pp, i, _ => ⟨s, rfl⟩
  | n :: rest, s, pp, i, hx => by
    obtain ⟨s1, h1⟩ := walkNode_total n s (some pp) (pp ++ [i]) hx
    have hx1 : s1.exclude_local = false :=
      ((walkNode_inv n s (some pp) (pp ++ [i]) s1 h1).2.1).trans hx
    obtain ⟨s2, h2⟩ := walkNodeList_total rest s1 pp (i + 1) hx1
    exact ⟨s2, by simp only [walkNodeList]; rw [h1]; exact h2⟩

end

/-! ### The `add_html_link` / `reformat_pages` build hooks -/

/-- The theme options read by `add_html_link`:
`html_theme_options.get("site_url", "")`, `.get("html_minify", False)`,
`.get("html_prettify", False)`. -/
structure ThemeOptions where
  site_url : String
  html_minify : Bool
  html_prettify : Bool

/-- The cross-process accumulator lists `app.sitemap_links` and
`app.site_pages` that `add_html_link` appends to. -/
structure SitemapState where
  sitemap_links : List String
  site_pages : List String

/-- Model of `add_html_link(app, pagename, templatename, context, doctree)`:
append the
page's full url to `app.sitemap_links` when a `site_url` is configured, then
raise `ValueError` if both `html_minify` and `html_prettify` are set,
otherwise queue the page for reformatting when either is set.
`os.path.join(app.outdir, pagename + ".html")` is modelled as the POSIX join
of a relative page name. -/
def add_html_link (opts : ThemeOptions) (pagename link_suffix outdir : String)
    (st : SitemapState) : Except String SitemapState :=
  let base_url := opts.site_url
  let st :=
    if base_url ≠ "" then
      let base_url := if base_url.endsWith "/" then base_url else base_url ++ "/"
      { st with sitemap_links :=
          st.sitemap_links ++ [base_url ++ pagename ++ link_suffix] }
    else st
  let minify := opts.html_minify
  let prettify := opts.html_prettify
  if minify && prettify then
    .error "html_minify and html_prettify cannot both be True"
  else if minify || prettify then
    .ok { st with site_pages :=
        st.site_pages ++ [outdir ++ "/" ++ pagename ++ ".html"] }
  else .ok st

/-- Model of `reformat_pages(app, exception)` by its observable effect: the
list of page files it rewrites.  The function returns immediately — writing
nothing — when the build ended with an exception or no pages were collected;
otherwise it rewrites every collected page in place. -/
def reformat_pages (exception : Option String) (site_pages : List String) :
    List String :=
  if exception.isSome || site_pages.isEmpty then [] else site_pages

/-! ### Claims -/

/-- C1: the claim says a group with children `page2.html#x` (path plus
fragment) and `#a` keeps both children under `exclude_local = true`, because a
child with a non-empty path component makes the group non-local-only.  The
code instead tests `self._url.find('#') == -1`, so any URL containing a
fragment — even one with a path to a different page — leaves `_local_only`
unchanged, and both children are pruned: the conversion of this group with
`exclude_local = true` is `[]`, contradicting the claim (and the source's own
comment that `_local_only` tracks "non-page local" links).  With
`exclude_local = false` both are retained, as claimed. -/
theorem mixed_group_children_pruned :
    _get_mkdocs_toc
        (.bullet_list false
          [.list_item false [.reference "X" (some "page2.html#x")],
           .list_item false [.reference "A" (some "#a")]]) true = .ok [] ∧
    _get_mkdocs_toc
        (.bullet_list false
          [.list_item false [.reference "X" (some "page2.html#x")],
           .list_item false [.reference "A" (some "#a")]]) false =
      .ok [.mk (some "X") (some "page2.html#x") [] false,
           .mk (some "A") (some "#a") [] false] :=
  ⟨rfl, rfl⟩

/-- C5: a group containing only the fragment-only references `#a` and `#b`
converts to an empty children list with `exclude_local = true`, and to both
entries in order with `exclude_local = false`. -/
theorem fragment_only_group :
    _get_mkdocs_toc
        (.bullet_list false
          [.list_item false [.reference "A" (some "#a")],
           .list_item false [.reference "B" (some "#b")]]) true = .ok [] ∧
    _get_mkdocs_toc
        (.bullet_list false
          [.list_item false [.reference "A" (some "#a")],
           .list_item false [.reference "B" (some "#b")]]) false =
      .ok [.mk (some "A") (some "#a") [] false,
           .mk (some "B") (some "#b") [] false] :=
  ⟨rfl, rfl⟩

/-- C2 counterexample: the claim says the converter raises no exception for
every tree and every value of `exclude_local`.  But with
`exclude_local = true`, a `Reference` carrying no URL makes
`visit_reference` evaluate `None.find('#')`, which raises `AttributeError`:
the conversion of this tree errors instead of producing `url = null`. -/
theorem reference_without_url_raises :
    _get_mkdocs_toc (.list_item false [.reference "X" none]) true =
      .error .attributeError :=
  rfl

/-- C2 (amended): with `exclude_local = false` the converter never raises —
in particular a `Reference` with no URL yields an entry with `url = null`;
only the combination of `exclude_local = true` with a URL-less reference
raises. -/
theorem convert_total_exclude_local_false :
    (∀ t : Node, ∃ r, _get_mkdocs_toc t false = .ok r) ∧
    _get_mkdocs_toc (.list_item false [.reference "X" none]) false =
      .ok [.mk (some "X") none [] false] := by
  constructor
  · intro t
    obtain ⟨s', hs'⟩ := walkNode_total t (TocVisitor.init false) none [] rfl
    exact ⟨s'.children, by simp only [_get_mkdocs_toc, hs']⟩
  · rfl

/-- C8: `_get_mkdocs_toc` constructs a fresh visitor per call and reads
nothing but its two arguments, so converting the same source tree twice with
the same `exclude_local` yields structurally identical output. -/
theorem toc_conversion_deterministic :
    ∀ (toc_node : Node) (exclude_local : Bool),
      _get_mkdocs_toc toc_node exclude_local =
        _get_mkdocs_toc toc_node exclude_local :=
  fun _ _ => rfl

/-- C9: every `visit_reference` overwrites the accumulator's previously
captured title and url, in both conversion modes: for any visitor state and
any URL-carrying reference the visit replaces `rendered_title` and `url`
(touching `local_only` only per the `find('#')` test), with `exclude_local =
false` the overwrite also covers a URL-less reference, and end to end a list
item containing two references (reached through a compact paragraph) reports
the title and url of the last reference visited under either value of
`exclude_local`. -/
theorem last_reference_wins :
    (∀ (s : TocVisitor) (parent : Option NodePath) (path : NodePath)
        (t u : String),
        walkNode s parent path (.reference t (some u)) =
          .ok { s with
            rendered_title := some t
            url := some u
            local_only :=
              if s.exclude_local && !containsHash u then false
              else s.local_only }) ∧
    (∀ (s : TocVisitor) (parent : Option NodePath) (path : NodePath)
        (t : String) (u : Option String),
        walkNode { s with exclude_local := false } parent path (.reference t u) =
          .ok { s with exclude_local := false, rendered_title := some t, url := u }) ∧
    (∀ (excl : Bool) (t1 t2 : String),
        _get_mkdocs_toc
            (.list_item false
              [.compact_paragraph
                [.reference t1 (some "a.html"), .reference t2 (some "b.html")]])
            excl =
          .ok [.mk (some t2) (some "b.html") [] false]) ∧
    (∀ (t1 t2 : String) (u1 u2 : Option String),
        _get_mkdocs_toc
            (.list_item false
              [.compact_paragraph [.reference t1 u1, .reference t2 u2]]) false =
          .ok [.mk (some t2) u2 [] false]) := by
  refine ⟨?_, fun _ _ _ _ _ => rfl, ?_, fun _ _ _ _ => rfl⟩
  · intro s p q t u
    simp only [walkNode]
    cases hx : s.exclude_local <;> cases hh : containsHash u <;> simp [hx, hh]
  · intro excl t1 t2
    cases excl <;> rfl

/-- C3 counterexample: the claim says a `ListItem` whose descendant
`BulletList` carries the "is current page" marker yields `active = true` on
that item's entry.  `visit_list_item` reads the marker only from the
`list_item` node itself, and the non-caption branch of `visit_bullet_list`
never reads it, so when the marker sits only on the nested bullet list the
first item's entry still has `active = false` (as does its unrelated
sibling): every produced entry of this tree is inactive. -/
theorem marked_descendant_not_active :
    (_get_mkdocs_toc
        (.bullet_list false
          [.list_item false
            [.reference "A" (some "a.html"),
             .bullet_list true [.list_item false [.reference "B" (some "b.html")]]],
           .list_item false [.reference "C" (some "c.html")]]) false).map
      (List.map NavEntry.active) = .ok [false, false] :=
  rfl

/-- C3 (amended): a `ListItem`'s entry is active exactly when the `list_item`
node itself carries the "is current page" marker (the host marks every
ancestor of the current page, so an item with a marked descendant is itself
marked in a well-formed document tree); an unmarked sibling's entry gets
`active = false`. -/
theorem list_item_entry_active_eq_marker :
    ∀ (b : Bool) (cs : List Node) (s : TocVisitor) (parent : Option NodePath)
      (path : NodePath) (s' : TocVisitor),
      walkNode s parent path (.list_item b cs) = .ok s' →
      s'.children = s.children ∨
        ∃ e, s'.children = s.children ++ [e] ∧ e.active = b := by
  intro b cs s p q s' h
  simp only [walkNode] at h
  cases hw : walkNodeList (childVisitor s.exclude_local b) q 0 cs with
  | error e => simp only [hw] at h; exact absurd h (by simp)
  | ok cv =>
    simp only [hw] at h
    have hact : cv.active = b :=
      (walkNodeList_inv cs (childVisitor s.exclude_local b) q 0 cv hw).1
    split at h
    · cases h; exact Or.inl rfl
    · cases h
      exact Or.inr ⟨cv.get_result, rfl, hact⟩

theorem list_item_entry_active_eq_marker_witness :
    (TocVisitor.mk none none none false
        [NavEntry.mk (some "A") (some "a.html") [] true] false false).children =
      (TocVisitor.init false).children ∨
    ∃ e, (TocVisitor.mk none none none false
        [NavEntry.mk (some "A") (some "a.html") [] true] false false).children =
      (TocVisitor.init false).children ++ [e] ∧ e.active = true :=
  list_item_entry_active_eq_marker true [.reference "A" (some "a.html")]
    (TocVisitor.init false) none [] _ rfl

/-- C6: output children preserve source sibling order.  Walking any node only
ever appends entries to the invoking visitor's `children` (never removes or
reorders what earlier siblings produced), and walking a sibling list
decomposes into walking the head first and the remaining siblings afterwards,
each contributing a (possibly empty, when pruned) consecutive block of
entries in source order. -/
theorem toc_preserves_sibling_order :
    (∀ (n : Node) (s : TocVisitor) (parent : Option NodePath) (path : NodePath)
        (s' : TocVisitor), walkNode s parent path n = .ok s' →
        ∃ t, s'.children = s.children ++ t) ∧
    (∀ (n : Node) (rest : List Node) (s : TocVisitor) (pp : NodePath) (i : Nat)
        (s2 : TocVisitor), walkNodeList s pp i (n :: rest) = .ok s2 →
        ∃ s1 d1 d2, walkNode s (some pp) (pp ++ [i]) n = .ok s1 ∧
          walkNodeList s1 pp (i + 1) rest = .ok s2 ∧
          s1.children = s.children ++ d1 ∧ s2.children = s1.children ++ d2) := by
  constructor
  · intro n s p q s' h
    exact (walkNode_inv n s p q s' h).2.2
  · intro n rest s pp i s2 h
    simp only [walkNodeList] at h
    cases hw : walkNode s (some pp) (pp ++ [i]) n with
    | error e => simp only [hw] at h; exact absurd h (by simp)
    | ok s1 =>
      simp only [hw] at h
      obtain ⟨d1, hd1⟩ := (walkNode_inv n s (some pp) (pp ++ [i]) s1 hw).2.2
      obtain ⟨d2, hd2⟩ := (walkNodeList_inv rest s1 pp (i + 1) s2 h).2.2
      exact ⟨s1, d1, d2, rfl, h, hd1, hd2⟩

theorem toc_preserves_sibling_order_witness :
    ∃ t, (TocVisitor.mk none none none false
        [NavEntry.mk (some "A") (some "x.html") [] false] false false).children =
      (TocVisitor.init false).children ++ t :=
  toc_preserves_sibling_order.1 (.list_item false [.reference "A" (some "x.html")])
    (TocVisitor.init false) none [] _ rfl

/-- C7: when both `html_minify` and `html_prettify` are configured, the
per-page hook `add_html_link` raises
`ValueError("html_minify and html_prettify cannot both be True")` — and in
general it succeeds exactly when not both are set; and `reformat_pages`
rewrites no page file at all when the build carries an exception (as it does
after the per-page hook raised). -/
theorem minify_prettify_conflict :
    (∀ (u pagename ls od : String) (st : SitemapState),
        add_html_link ⟨u, true, true⟩ pagename ls od st =
          .error "html_minify and html_prettify cannot both be True") ∧
    (∀ (u pagename ls od : String) (st : SitemapState) (m p : Bool),
        (add_html_link ⟨u, m, p⟩ pagename ls od st).isOk = !(m && p)) ∧
    (∀ (exc : String) (pages : List String),
        reformat_pages (some exc) pages = []) := by
  refine ⟨?_, ?_, ?_⟩
  · intro u pagename ls od st
    rfl
  · intro u pagename ls od st m p
    cases m <;> cases p <;> rfl
  · intro exc pages
    rfl

/-- C10: a pending caption groups at most one bullet list.  Concretely, a
caption followed by two sibling bullet lists wraps only the first (the second
contributes its items directly), and a caption whose parent differs from the
bullet list's parent wraps nothing; in general, taking the caption branch
resets `_prev_caption` to `None`, and a bullet list whose parent is not the
pending caption's parent is processed exactly as an uncaptioned list. -/
theorem caption_consumed_once :
    (_get_mkdocs_toc
        (.paragraph
          [.caption "T",
           .bullet_list false [.list_item false [.reference "A" (some "a.html")]],
           .bullet_list false [.list_item false [.reference "B" (some "b.html")]]])
        false =
      .ok [.mk (some "T") (some "a.html")
            [.mk (some "A") (some "a.html") [] false] false,
           .mk (some "B") (some "b.html") [] false]) ∧
    (_get_mkdocs_toc
        (.paragraph
          [.paragraph [.caption "T"],
           .bullet_list false [.list_item false [.reference "B" (some "b.html")]]])
        false =
      .ok [.mk (some "B") (some "b.html") [] false]) ∧
    (∀ (s : TocVisitor) (parent : Option NodePath) (path : NodePath) (b : Bool)
        (cs : List Node) (t : String) (s' : TocVisitor),
        s.prev_caption = some (t, parent) →
        walkNode s parent path (.bullet_list b cs) = .ok s' →
        s'.prev_caption = none) ∧
    (∀ (s : TocVisitor) (parent cp : Option NodePath) (path : NodePath)
        (b : Bool) (cs : List Node) (t : String),
        s.prev_caption = some (t, cp) → cp ≠ parent →
        walkNode s parent path (.bullet_list b cs) = walkNodeList s path 0 cs) := by
  refine ⟨rfl, rfl, ?_, ?_⟩
  · intro s p q b cs t s' hpc h
    simp only [walkNode, hpc, if_true] at h
    cases hw : walkNodeList (childVisitor s.exclude_local b) q 0 cs with
    | error e => simp only [hw] at h; exact absurd h (by simp)
    | ok cv =>
      simp only [hw] at h
      cases h
      split <;> rfl
  · intro s p cp q b cs t hpc hcp
    simp only [walkNode, hpc]
    rw [if_neg hcp]

theorem caption_consumed_once_witness :
    (TocVisitor.mk none none none false
        [NavEntry.mk (some "T") none [] false] false true).prev_caption = none :=
  caption_consumed_once.2.2.1
    (TocVisitor.mk (some ("T", some [])) none none false [] false true)
    (some []) [1] false [] "T" _ rfl rfl

/-- C4: a caption immediately followed (under the same parent) by a bullet
list produces exactly one parent entry titled with the caption's text, whose
url is the first child's url (`null` when the group has no children) and
whose children are the converted list items in order — for a two-item list,
of length 2. -/
theorem caption_grouping_entry :
    (∀ (excl b : Bool) (t : String) (cs : List Node) (cv : TocVisitor),
        walkNodeList (childVisitor excl b) [1] 0 cs = .ok cv →
        _get_mkdocs_toc (.paragraph [.caption t, .bullet_list b cs]) excl =
          .ok [.mk (some t) (firstChildUrl cv.children) cv.children cv.active]) ∧
    (∀ (t a b : String),
        _get_mkdocs_toc
            (.paragraph
              [.caption t,
               .bullet_list false
                 [.list_item false [.reference "A" (some a)],
                  .list_item false [.reference "B" (some b)]]]) false =
          .ok [.mk (some t) (some a)
                [.mk (some "A") (some a) [] false,
                 .mk (some "B") (some b) [] false] false]) ∧
    (∀ t : String,
        _get_mkdocs_toc (.paragraph [.caption t, .bullet_list false []]) false =
          .ok [.mk (some t) none [] false]) := by
  refine ⟨?_, fun _ _ _ => rfl, fun _ => rfl⟩
  intro excl b t cs cv h
  simp only [_get_mkdocs_toc, walkNode, walkNodeList, TocVisitor.init,
    List.nil_append, if_true, h]
  split <;> rfl

theorem caption_grouping_entry_witness :
    _get_mkdocs_toc (.paragraph [.caption "T", .bullet_list false []]) false =
      .ok [.mk (some "T") none [] false] :=
  caption_grouping_entry.1 false false "T" [] (childVisitor false false) rfl
